import Mathlib

/-!
Verification of the schedule-to-state resolution engine of the renLD
repository: the service-calendar resolver (`getActiveTripsForToday` in the
GTFS parser module) and the position simulator (`calculateTrainPositions`
in `src/services/trainSimulator.ts`).

The embedding keeps the source's names.  JavaScript `Map`s become
association lists (`List (key × value)`, insertion order preserved, looked
up with `List.lookup`), the JS `Set<string>` of active service ids becomes
a `Finset String` (membership is the only observation the source makes of
it), numbers holding seconds-since-midnight or `YYYYMMDD` integers become
`ℤ`, geographic coordinates become `ℚ` (the source only adds, subtracts,
multiplies and divides them, idealizing IEEE doubles by exact arithmetic),
and the transcendental bearing computation is carried out over `ℝ`.
-/

/-- Modelled from the spec (§3, the `types` module is absent from `src/`):
a stop record with identifier, display name and decimal-degree
coordinates. -/
structure Stop where
  stop_id : String
  stop_name : String
  stop_lat : ℚ
  stop_lon : ℚ
deriving DecidableEq

/-- Modelled from the spec (§3): a route record; only the identifier is
consulted by the core, display fields are omitted. -/
structure Route where
  route_id : String
  route_short_name : String
deriving DecidableEq

/-- Modelled from the spec (§3): a trip record with its owning route and
service identifiers. -/
structure Trip where
  trip_id : String
  route_id : String
  service_id : String
  trip_headsign : String
deriving DecidableEq

/-- Modelled from the spec (§3): one scheduled visit of a trip to a stop.
The derived seconds fields are optional (the source consistently reads
them as `x.arrival_seconds || 0`). -/
structure StopTime where
  trip_id : String
  stop_id : String
  stop_sequence : ℕ
  arrival_seconds : Option ℤ
  departure_seconds : Option ℤ
deriving DecidableEq

/-- Modelled from the spec (§3): a weekly CalendarRule, keyed by service
id, with seven day-of-week flags and an inclusive `[start_date, end_date]`
window of `YYYYMMDD` integers.  The source stores the raw CSV row and
applies `parseInt` to the window fields and an `=== '1'` comparison to the
flags at query time; the post-coercion values are represented here. -/
structure Calendar where
  service_id : String
  monday : Bool
  tuesday : Bool
  wednesday : Bool
  thursday : Bool
  friday : Bool
  saturday : Bool
  sunday : Bool
  start_date : ℤ
  end_date : ℤ
deriving DecidableEq

/-- Modelled from the spec (§3): a CalendarException row.  The source
compares `date` with the query date string and `exception_type` with the
string constants `"1"` (ADDED) and `"2"` (REMOVED), so both stay raw
strings here. -/
structure CalendarDate where
  service_id : String
  date : String
  exception_type : String
deriving DecidableEq

/-- The Schedule Store consumed by the position simulator: all four tables
of the source's `GTFSData`, as insertion-ordered association lists. -/
structure GTFSData where
  stops : List (String × Stop)
  routes : List (String × Route)
  trips : List (String × Trip)
  stopTimes : List (String × List StopTime)

/-- The extended store consumed by the service resolver: `GTFSData` plus
the weekly rules and the per-service exception lists.  `calendarDates` is
optional, mirroring the source's `if (gtfs.calendarDates)` guard. -/
structure ExtendedGTFSData extends GTFSData where
  calendar : List (String × Calendar)
  calendarDates : Option (List (String × List CalendarDate))

/-- The source reads every schedule time as `x.arrival_seconds || 0`;
since the parsed values are non-negative integers this is exactly
`Option.getD 0`. -/
def arrS (st : StopTime) : ℤ := st.arrival_seconds.getD 0

/-- Departure seconds with the same `|| 0` coercion as `arrS`. -/
def depS (st : StopTime) : ℤ := st.departure_seconds.getD 0

/-- `interpolate` from `trainSimulator.ts`: `start + (end - start) * fraction`. -/
def interpolate (start stop fraction : ℚ) : ℚ := start + (stop - start) * fraction

/-- JavaScript `Math.atan2 y x`: the argument of the complex number
`x + y*i`, in `(-π, π]`. -/
noncomputable def atan2 (y x : ℝ) : ℝ := Complex.arg ⟨x, y⟩

/-- JavaScript's `%` operator on numbers: the remainder after division
truncated toward zero. -/
noncomputable def jsRem (a b : ℝ) : ℝ :=
  a - b * (if 0 ≤ a / b then ((⌊a / b⌋ : ℤ) : ℝ) else ((⌈a / b⌉ : ℤ) : ℝ))

/-- `getBearing` from `trainSimulator.ts`: initial compass bearing from
point 1 to point 2, `(toDeg (atan2 y x) + 360) % 360` with the spherical
forward-azimuth `y` and `x`. -/
noncomputable def getBearing (lat1 lon1 lat2 lon2 : ℚ) : ℝ :=
  let toRad : ℝ → ℝ := fun deg => deg * Real.pi / 180
  let toDeg : ℝ → ℝ := fun rad => rad * 180 / Real.pi
  let dLon : ℝ := toRad ((lon2 : ℝ) - (lon1 : ℝ))
  let lat1Rad : ℝ := toRad (lat1 : ℝ)
  let lat2Rad : ℝ := toRad (lat2 : ℝ)
  let y : ℝ := Real.sin dLon * Real.cos lat2Rad
  let x : ℝ := Real.cos lat1Rad * Real.sin lat2Rad -
    Real.sin lat1Rad * Real.cos lat2Rad * Real.cos dLon
  jsRem (toDeg (atan2 y x) + 360) 360

/-- The running-state tag of an emitted position; the simulator only ever
emits these two states. -/
inductive TrainStatus where
  | AT_STOP
  | MOVING
deriving DecidableEq

/-- The simulator's output record (spec §3 "Position"): identifier,
coordinates, bearing, state, and the optional display lookups. -/
structure TrainPosition where
  trip_id : String
  lat : ℚ
  lng : ℚ
  bearing : ℝ
  status : TrainStatus
  nextStop : Option Stop
  prevStop : Option Stop
  route : Option Route
  trip : Option Trip

/-- The route display lookup shared by both emission sites:
`gtfs.routes.get(gtfs.trips.get(tripId)?.route_id || '')`. -/
def routeLookup (gtfs : GTFSData) (tripId : String) : Option Route :=
  List.lookup (((List.lookup tripId gtfs.trips).map Trip.route_id).getD "") gtfs.routes

/-- The record pushed by Case 1 of `calculateTrainPositions` (train at a
stop): the stop's own coordinates, bearing `0`, state `AT_STOP`, with
`nextStop` the upcoming stop and `prevStop` the current one. -/
def mkAtStop (gtfs : GTFSData) (tripId : String) (current next : StopTime)
    (stopInfo : Stop) : TrainPosition :=
  { trip_id := tripId
    lat := stopInfo.stop_lat
    lng := stopInfo.stop_lon
    bearing := 0
    status := .AT_STOP
    nextStop := List.lookup next.stop_id gtfs.stops
    prevStop := List.lookup current.stop_id gtfs.stops
    route := routeLookup gtfs tripId
    trip := List.lookup tripId gtfs.trips }

/-- The record pushed by Case 2 of `calculateTrainPositions` (train moving
between stops): linear interpolation of both coordinates at fraction
`elapsed / duration`, bearing from stop A to stop B, state `MOVING`. -/
noncomputable def mkMoving (gtfs : GTFSData) (tripId : String) (now : ℤ)
    (current next : StopTime) (stopA stopB : Stop) : TrainPosition :=
  let duration : ℤ := arrS next - depS current
  let elapsed : ℤ := now - depS current
  let fraction : ℚ := (elapsed : ℚ) / (duration : ℚ)
  { trip_id := tripId
    lat := interpolate stopA.stop_lat stopB.stop_lat fraction
    lng := interpolate stopA.stop_lon stopB.stop_lon fraction
    bearing := getBearing stopA.stop_lat stopA.stop_lon stopB.stop_lat stopB.stop_lon
    status := .MOVING
    nextStop := some stopB
    prevStop := some stopA
    route := routeLookup gtfs tripId
    trip := List.lookup tripId gtfs.trips }

/-- The inner `for (let i = 0; i < times.length - 1; i++)` scan of
`calculateTrainPositions`.  Case 1 (at a stop) and Case 2 (moving) both
`break` whether or not the stop lookups succeed; only a non-matching
segment advances the scan. -/
noncomputable def scanSegments (gtfs : GTFSData) (tripId : String) (now : ℤ) :
    List StopTime → Option TrainPosition
  | current :: next :: rest =>
    if arrS current ≤ now ∧ now ≤ depS current then
      match List.lookup current.stop_id gtfs.stops with
      | some stopInfo => some (mkAtStop gtfs tripId current next stopInfo)
      | none => none
    else if depS current < now ∧ now < arrS next then
      match List.lookup current.stop_id gtfs.stops,
            List.lookup next.stop_id gtfs.stops with
      | some stopA, some stopB => some (mkMoving gtfs tripId now current next stopA stopB)
      | _, _ => none
    else
      scanSegments gtfs tripId now (next :: rest)
  | _ => none

/-- The body of the outer trip loop of `calculateTrainPositions`: the
fallthrough branch covers the source's `!times || times.length < 2`
guard, and the two `continue`s are the not-started / finished window
checks against the first departure and last arrival. -/
noncomputable def simulateTrip (gtfs : GTFSData) (tripId : String)
    (currentSeconds : ℤ) : Option TrainPosition :=
  match List.lookup tripId gtfs.stopTimes with
  | some (t0 :: t1 :: rest) =>
    let firstStop := t0
    let lastStop := List.getLast (t1 :: rest) (List.cons_ne_nil t1 rest)
    if currentSeconds < depS firstStop then none
    else if currentSeconds > arrS lastStop then none
    else scanSegments gtfs tripId currentSeconds (t0 :: t1 :: rest)
  | _ => none

/-- `calculateTrainPositions` from `trainSimulator.ts`: one pass over
`activeTripIds`, pushing at most one position per entry in iteration
order. -/
noncomputable def calculateTrainPositions (gtfs : GTFSData)
    (activeTripIds : List String) (currentSeconds : ℤ) : List TrainPosition :=
  activeTripIds.filterMap (fun tripId => simulateTrip gtfs tripId currentSeconds)

/-- The calendar date handed to `getActiveTripsForToday`: the fields of
the JS `Date` object the source reads (`getFullYear`, `getMonth() + 1`,
`getDate`, `getDay` with `0 = Sunday`). -/
structure SimDate where
  year : ℕ
  month : ℕ
  day : ℕ
  dayOfWeek : ℕ
deriving DecidableEq

/-- JavaScript `toString().padStart(2, '0')` for the month and day
components (their decimal form is never empty). -/
def pad2 (n : ℕ) : String :=
  if (toString n).length < 2 then "0" ++ toString n else toString n

/-- The `YYYYMMDD` string the source builds for the exception
comparison. -/
def dateStr (d : SimDate) : String :=
  toString d.year ++ pad2 d.month ++ pad2 d.day

/-- `parseInt` of the `YYYYMMDD` string; on the all-digit strings built by
`dateStr` this is plain decimal interpretation of the digit characters. -/
def dateInt (d : SimDate) : ℤ :=
  (((dateStr d).data.foldl (fun n c => n * 10 + (c.toNat - Char.toNat '0')) 0 : ℕ) : ℤ)

/-- The composite of the source's weekday-name array
`['sunday','monday',...,'saturday']` indexed by `getDay()` and the
dynamic `(cal as any)[todayStr] === '1'` flag read; an out-of-range index
reads an undefined property and yields `false`. -/
def dayFlag (cal : Calendar) (dow : ℕ) : Bool :=
  match dow with
  | 0 => cal.sunday
  | 1 => cal.monday
  | 2 => cal.tuesday
  | 3 => cal.wednesday
  | 4 => cal.thursday
  | 5 => cal.friday
  | 6 => cal.saturday
  | _ => false

/-- One iteration of the source's standard-calendar scan: inside the
inclusive window, a set weekday flag adds the rule's service id. -/
def ruleStep (dow : ℕ) (dI : ℤ) (acc : Finset String) (p : String × Calendar) :
    Finset String :=
  if p.2.start_date ≤ dI ∧ dI ≤ p.2.end_date then
    (if dayFlag p.2 dow then insert p.2.service_id acc else acc)
  else acc

/-- Step 1 of `getActiveTripsForToday`: seed the active-service set from
every CalendarRule (`gtfs.calendar.forEach`). -/
def ruleServiceIds (calendar : List (String × Calendar)) (dow : ℕ) (dI : ℤ) :
    Finset String :=
  calendar.foldl (ruleStep dow dI) ∅

/-- One exception row applied to the active-service set: on an exact date
match, type `"1"` adds the owning map key, type `"2"` deletes it, and any
other type (or date) leaves the set unchanged. -/
def excStep (dStr serviceId : String) (a : Finset String) (d : CalendarDate) :
    Finset String :=
  if d.date = dStr then
    (if d.exception_type = "1" then insert serviceId a
     else if d.exception_type = "2" then a.erase serviceId
     else a)
  else a

/-- A single service's exception list applied in file order
(`dates.forEach` inside the source's step 2). -/
def applyExceptionList (dStr serviceId : String) (dates : List CalendarDate)
    (acc : Finset String) : Finset String :=
  dates.foldl (excStep dStr serviceId) acc

/-- Step 2 of `getActiveTripsForToday`: every service's exception list
applied to the seeded set (`gtfs.calendarDates.forEach`). -/
def applyExceptions (dStr : String) (cds : List (String × List CalendarDate))
    (acc : Finset String) : Finset String :=
  cds.foldl (fun a p => applyExceptionList dStr p.1 p.2 a) acc

/-- The final active-service set of `getActiveTripsForToday`: the rule
seed, then the exceptions when the `calendarDates` table is present. -/
def activeServiceIds (gtfs : ExtendedGTFSData) (date : SimDate) : Finset String :=
  let seeded := ruleServiceIds gtfs.calendar date.dayOfWeek (dateInt date)
  match gtfs.calendarDates with
  | none => seeded
  | some cds => applyExceptions (dateStr date) cds seeded

/-- `getActiveTripsForToday` from the GTFS parser module: emit, in table
order, the id of every trip whose service id is in the final active
set. -/
def getActiveTripsForToday (gtfs : ExtendedGTFSData) (date : SimDate) :
    List String :=
  let active := activeServiceIds gtfs date
  gtfs.trips.foldl
    (fun acc p => if p.2.service_id ∈ active then acc ++ [p.2.trip_id] else acc) []

/-- Specification-side decision function for claim C10, following the
spec's words: scanning a service's exception list in order, the last
entry matching the query date decides (`some true` = ADDED wins,
`some false` = REMOVED wins, `none` = no matching entry). -/
def specStep (dStr : String) (o : Option Bool) (d : CalendarDate) : Option Bool :=
  if d.date = dStr then
    (if d.exception_type = "1" then some true
     else if d.exception_type = "2" then some false
     else o)
  else o

/-- The last matching exception decision for one service (spec-side
characterization, compared against the source's fold in claim C10). -/
def lastExceptionSpec (dates : List CalendarDate) (dStr : String) : Option Bool :=
  dates.foldl (specStep dStr) none

/-- Three-way choice used to state the exception characterizations: a
decided exception forces membership, no decision defers to the given
fallback proposition. -/
def mChoice : Option Bool → Prop → Prop
  | some b, _ => b = true
  | none, p => p

/-- Schedule well-formedness from spec §3: each stop-time departs no
earlier than it arrives, and each stop-time's departure is no later than
the next stop-time's arrival. -/
def scheduleWellFormed (ts : List StopTime) : Prop :=
  (∀ st ∈ ts, arrS st ≤ depS st) ∧
  ∀ pr ∈ ts.zip ts.tail, depS pr.1 ≤ arrS pr.2

instance (ts : List StopTime) : Decidable (scheduleWellFormed ts) :=
  inferInstanceAs (Decidable ((∀ st ∈ ts, arrS st ≤ depS st) ∧
    ∀ pr ∈ ts.zip ts.tail, depS pr.1 ≤ arrS pr.2))

theorem wf_head_pair {a b : StopTime} {l : List StopTime}
    (h : scheduleWellFormed (a :: b :: l)) : depS a ≤ arrS b :=
  h.2 (a, b) (by simp)

theorem scheduleWellFormed_tail {a : StopTime} {l : List StopTime}
    (h : scheduleWellFormed (a :: l)) : scheduleWellFormed l := by
  refine ⟨fun st hst => h.1 st (List.mem_cons_of_mem a hst), ?_⟩
  intro pr hpr
  apply h.2 pr
  cases l with
  | nil => simp at hpr
  | cons b l' =>
    simp only [List.tail_cons] at hpr ⊢
    simp only [List.zip_cons_cons, List.mem_cons]
    exact Or.inr hpr

theorem wf_dep_head_le_last :
    ∀ (a : StopTime) (l : List StopTime) (h : l ≠ []),
      scheduleWellFormed (a :: l) → depS a ≤ arrS (l.getLast h)
  | _, [], h, _ => absurd rfl h
  | a, [b], _, hwf => by simpa using wf_head_pair hwf
  | a, b :: c :: l', _, hwf => by
    have h1 : depS a ≤ arrS b := wf_head_pair hwf
    have h2 : arrS b ≤ depS b := hwf.1 b (by simp)
    have h3 := wf_dep_head_le_last b (c :: l') (List.cons_ne_nil c l')
      (scheduleWellFormed_tail hwf)
    rw [List.getLast_cons (List.cons_ne_nil c l')]
    exact le_trans h1 (le_trans h2 h3)

theorem wf_arr_le_last :
    ∀ (ts : List StopTime) (h : ts ≠ []), scheduleWellFormed ts →
      ∀ x ∈ ts, arrS x ≤ arrS (ts.getLast h)
  | [], h, _, _, _ => absurd rfl h
  | [a], _, _, x, hx => by
    simp only [List.mem_singleton] at hx
    subst hx
    simp
  | a :: b :: l, _, hwf, x, hx => by
    rw [List.getLast_cons (List.cons_ne_nil b l)]
    rcases List.mem_cons.mp hx with hxa | hxm
    · subst hxa
      have h1 : arrS x ≤ depS x := hwf.1 x (by simp)
      have h2 : depS x ≤ arrS b := wf_head_pair hwf
      have h3 := wf_arr_le_last (b :: l) (List.cons_ne_nil b l)
        (scheduleWellFormed_tail hwf) b (by simp)
      exact le_trans h1 (le_trans h2 h3)
    · exact wf_arr_le_last (b :: l) (List.cons_ne_nil b l)
        (scheduleWellFormed_tail hwf) x hxm

/-- If no consecutive pair satisfies the at-stop or the moving condition,
the segment scan falls off the end of the sequence and yields nothing. -/
theorem scanSegments_eq_none (gtfs : GTFSData) (tripId : String) (now : ℤ) :
    ∀ ts : List StopTime,
      (∀ pr ∈ ts.zip ts.tail,
        ¬(arrS pr.1 ≤ now ∧ now ≤ depS pr.1) ∧ ¬(depS pr.1 < now ∧ now < arrS pr.2)) →
      scanSegments gtfs tripId now ts = none
  | [], _ => rfl
  | [_], _ => rfl
  | cur :: nxt :: rest, h => by
    have hpair := h (cur, nxt) (by simp)
    rw [scanSegments, if_neg hpair.1, if_neg hpair.2]
    exact scanSegments_eq_none gtfs tripId now (nxt :: rest)
      (fun pr hpr => h pr (by
        simp only [List.zip_cons_cons, List.tail_cons, List.mem_cons]
        right
        simpa using hpr))

/-- Every successful scan result is one of the two record shapes pushed by
the source, with its stop lookups resolved. -/
theorem scanSegments_shape (gtfs : GTFSData) (tripId : String) (now : ℤ) :
    ∀ (ts : List StopTime) (p : TrainPosition),
      scanSegments gtfs tripId now ts = some p →
      (∃ cur nxt s, List.lookup cur.stop_id gtfs.stops = some s ∧
        p = mkAtStop gtfs tripId cur nxt s) ∨
      (∃ cur nxt a b, List.lookup cur.stop_id gtfs.stops = some a ∧
        List.lookup nxt.stop_id gtfs.stops = some b ∧
        p = mkMoving gtfs tripId now cur nxt a b)
  | [], _, h => by simp [scanSegments] at h
  | [_], _, h => by simp [scanSegments] at h
  | cur :: nxt :: rest, p, h => by
    rw [scanSegments] at h
    by_cases h1 : arrS cur ≤ now ∧ now ≤ depS cur
    · rw [if_pos h1] at h
      cases hl : List.lookup cur.stop_id gtfs.stops with
      | none => rw [hl] at h; exact absurd h (by simp)
      | some s =>
        rw [hl] at h
        exact Or.inl ⟨cur, nxt, s, hl, (Option.some.inj h).symm⟩
    · rw [if_neg h1] at h
      by_cases h2 : depS cur < now ∧ now < arrS nxt
      · rw [if_pos h2] at h
        cases ha : List.lookup cur.stop_id gtfs.stops with
        | none => rw [ha] at h; exact absurd h (by simp)
        | some a =>
          cases hb : List.lookup nxt.stop_id gtfs.stops with
          | none => rw [ha, hb] at h; exact absurd h (by simp)
          | some b =>
            rw [ha, hb] at h
            exact Or.inr ⟨cur, nxt, a, b, ha, hb, (Option.some.inj h).symm⟩
      · rw [if_neg h2] at h
        exact scanSegments_shape gtfs tripId now (nxt :: rest) p h

/-- A successful per-trip simulation is a successful scan of the looked-up
stop-time sequence, which passed both window checks. -/
theorem simulateTrip_some (gtfs : GTFSData) (tid : String) (now : ℤ)
    (p : TrainPosition) (h : simulateTrip gtfs tid now = some p) :
    ∃ ts, List.lookup tid gtfs.stopTimes = some ts ∧
      scanSegments gtfs tid now ts = some p := by
  unfold simulateTrip at h
  cases hl : List.lookup tid gtfs.stopTimes with
  | none => rw [hl] at h; exact absurd h (by simp)
  | some ts =>
    rw [hl] at h
    match ts with
    | [] => exact absurd h (by simp)
    | [_] => exact absurd h (by simp)
    | t0 :: t1 :: rest =>
      refine ⟨t0 :: t1 :: rest, rfl, ?_⟩
      simp only at h
      split_ifs at h
      exact h

/-- Every emitted position carries the trip id of the entry it was
computed for. -/
theorem simulateTrip_trip_id (gtfs : GTFSData) (tid : String) (now : ℤ)
    (p : TrainPosition) (h : simulateTrip gtfs tid now = some p) :
    p.trip_id = tid := by
  obtain ⟨ts, _, hscan⟩ := simulateTrip_some gtfs tid now p h
  rcases scanSegments_shape gtfs tid now ts p hscan with
    ⟨_, _, _, _, hp⟩ | ⟨_, _, _, _, _, _, hp⟩
  · rw [hp]; rfl
  · rw [hp]; rfl

/-- Membership in the tick output is a successful per-trip simulation of
one of the requested trip ids. -/
theorem mem_calculateTrainPositions (gtfs : GTFSData) (ids : List String)
    (now : ℤ) (p : TrainPosition) :
    p ∈ calculateTrainPositions gtfs ids now ↔
      ∃ id ∈ ids, simulateTrip gtfs id now = some p := by
  simp [calculateTrainPositions, List.mem_filterMap]

/-- A trip whose simulation yields nothing contributes no position to the
tick output, whatever else is in the requested id list. -/
theorem no_position_of_none (gtfs : GTFSData) (ids : List String) (now : ℤ)
    (tid : String) (h : simulateTrip gtfs tid now = none) :
    ∀ p ∈ calculateTrainPositions gtfs ids now, p.trip_id ≠ tid := by
  intro p hp heq
  obtain ⟨id, _, hsome⟩ := (mem_calculateTrainPositions gtfs ids now p).1 hp
  have hid : p.trip_id = id := simulateTrip_trip_id gtfs id now p hsome
  rw [heq] at hid
  rw [← hid] at hsome
  rw [h] at hsome
  exact absurd hsome (by simp)

theorem mem_ruleFold (dow : ℕ) (dI : ℤ) :
    ∀ (l : List (String × Calendar)) (acc : Finset String) (s : String),
      (s ∈ l.foldl (ruleStep dow dI) acc ↔
        s ∈ acc ∨ ∃ p ∈ l, p.2.service_id = s ∧
          (p.2.start_date ≤ dI ∧ dI ≤ p.2.end_date) ∧ dayFlag p.2 dow = true)
  | [], acc, s => by simp
  | q :: l, acc, s => by
    rw [List.foldl_cons, mem_ruleFold dow dI l _ s]
    unfold ruleStep
    by_cases hw : q.2.start_date ≤ dI ∧ dI ≤ q.2.end_date
    · rw [if_pos hw]
      by_cases hf : dayFlag q.2 dow = true
      · rw [if_pos hf]
        simp only [Finset.mem_insert, List.exists_mem_cons_iff, hw, hf,
          and_true, true_and]
        constructor
        · rintro (⟨h | h⟩ | h)
          · exact Or.inr (Or.inl h.symm)
          · exact Or.inl h
          · exact Or.inr (Or.inr h)
        · rintro (h | h | h)
          · exact Or.inl (Or.inr h)
          · exact Or.inl (Or.inl h.symm)
          · exact Or.inr h
      · rw [if_neg hf]
        simp [List.exists_mem_cons_iff, hf]
    · rw [if_neg hw]
      simp [List.exists_mem_cons_iff, hw]

/-- Membership characterization of the rule seed: exactly the services
with a rule whose inclusive window contains the date and whose weekday
flag is set. -/
theorem mem_ruleServiceIds (calendar : List (String × Calendar)) (dow : ℕ)
    (dI : ℤ) (s : String) :
    s ∈ ruleServiceIds calendar dow dI ↔
      ∃ p ∈ calendar, p.2.service_id = s ∧
        (p.2.start_date ≤ dI ∧ dI ≤ p.2.end_date) ∧ dayFlag p.2 dow = true := by
  unfold ruleServiceIds
  rw [mem_ruleFold]
  simp

/-- Exception entries keyed by a different service never change another
service's membership. -/
theorem applyExceptionList_other (dStr k s : String) (hne : k ≠ s) :
    ∀ (dates : List CalendarDate) (acc : Finset String),
      (s ∈ applyExceptionList dStr k dates acc ↔ s ∈ acc)
  | [], _ => Iff.rfl
  | d :: ds, acc => by
    show s ∈ applyExceptionList dStr k ds (excStep dStr k acc d) ↔ _
    rw [applyExceptionList_other dStr k s hne ds _]
    unfold excStep
    split_ifs
    · simp [Finset.mem_insert, Ne.symm hne]
    · simp [Finset.mem_erase, Ne.symm hne]
    · exact Iff.rfl
    · exact Iff.rfl

/-- Invariant of one service's exception fold: membership after the fold
is decided by the last matching entry, deferring to the starting
membership when no entry matches. -/
theorem applyExceptionList_self (dStr s : String) :
    ∀ (dates : List CalendarDate) (acc : Finset String) (o : Option Bool)
      (p0 : Prop), (s ∈ acc ↔ mChoice o p0) →
      (s ∈ applyExceptionList dStr s dates acc ↔
        mChoice (dates.foldl (specStep dStr) o) p0)
  | [], acc, o, p0, h => h
  | d :: ds, acc, o, p0, h => by
    show s ∈ applyExceptionList dStr s ds (excStep dStr s acc d) ↔
      mChoice (ds.foldl (specStep dStr) (specStep dStr o d)) p0
    apply applyExceptionList_self dStr s ds _ _ p0
    unfold excStep specStep
    split_ifs
    · simp [mChoice]
    · simp [mChoice]
    · exact h
    · exact h

theorem applyExceptions_cons (dStr : String) (q : String × List CalendarDate)
    (l : List (String × List CalendarDate)) (acc : Finset String) :
    applyExceptions dStr (q :: l) acc =
      applyExceptions dStr l (applyExceptionList dStr q.1 q.2 acc) := rfl

theorem applyExceptions_append (dStr : String)
    (l1 l2 : List (String × List CalendarDate)) (acc : Finset String) :
    applyExceptions dStr (l1 ++ l2) acc =
      applyExceptions dStr l2 (applyExceptions dStr l1 acc) := by
  unfold applyExceptions
  rw [List.foldl_append]

theorem applyExceptions_other (dStr s : String) :
    ∀ (l : List (String × List CalendarDate)) (acc : Finset String),
      (∀ p ∈ l, p.1 ≠ s) → (s ∈ applyExceptions dStr l acc ↔ s ∈ acc)
  | [], _, _ => Iff.rfl
  | q :: l, acc, h => by
    rw [applyExceptions_cons,
      applyExceptions_other dStr s l _ (fun p hp => h p (List.mem_cons_of_mem q hp))]
    exact applyExceptionList_other dStr q.1 s (h q (by simp)) q.2 acc

/-- The full exception pass, for a service keyed exactly once: its own
list decides by last matching entry, every other list is inert. -/
theorem applyExceptions_split (dStr s : String) (ds : List CalendarDate)
    (l1 l2 : List (String × List CalendarDate)) (acc : Finset String)
    (h : ∀ p ∈ l1 ++ l2, p.1 ≠ s) :
    (s ∈ applyExceptions dStr (l1 ++ (s, ds) :: l2) acc ↔
      mChoice (lastExceptionSpec ds dStr) (s ∈ acc)) := by
  have h1 : ∀ p ∈ l1, p.1 ≠ s := fun p hp => h p (List.mem_append_left _ hp)
  have h2 : ∀ p ∈ l2, p.1 ≠ s := fun p hp => h p (List.mem_append_right _ hp)
  rw [applyExceptions_append, applyExceptions_cons,
    applyExceptions_other dStr s l2 _ h2]
  exact applyExceptionList_self dStr s ds _ none (s ∈ acc)
    (applyExceptions_other dStr s l1 acc h1)

theorem mem_tripsFold (active : Finset String) :
    ∀ (l : List (String × Trip)) (acc : List String) (tid : String),
      (tid ∈ l.foldl
        (fun acc p => if p.2.service_id ∈ active then acc ++ [p.2.trip_id] else acc)
          acc ↔
        tid ∈ acc ∨ ∃ p ∈ l, p.2.service_id ∈ active ∧ p.2.trip_id = tid)
  | [], acc, tid => by simp
  | q :: l, acc, tid => by
    rw [List.foldl_cons, mem_tripsFold active l _ tid]
    by_cases hq : q.2.service_id ∈ active
    · rw [if_pos hq]
      simp only [List.mem_append, List.mem_singleton, List.exists_mem_cons_iff,
        hq, true_and]
      constructor
      · rintro (⟨h | h⟩ | h)
        · exact Or.inl h
        · exact Or.inr (Or.inl h.symm)
        · exact Or.inr (Or.inr h)
      · rintro (h | h | h)
        · exact Or.inl (Or.inl h)
        · exact Or.inl (Or.inr h.symm)
        · exact Or.inr h
    · rw [if_neg hq]
      simp only [List.exists_mem_cons_iff, hq, false_and, false_or]

/-- Membership characterization of the resolver output: a trip id is
emitted exactly when some trip row carries it and that row's service id is
in the final active set. -/
theorem mem_getActiveTripsForToday (gtfs : ExtendedGTFSData) (date : SimDate)
    (tid : String) :
    tid ∈ getActiveTripsForToday gtfs date ↔
      ∃ p ∈ gtfs.trips, p.2.service_id ∈ activeServiceIds gtfs date ∧
        p.2.trip_id = tid := by
  unfold getActiveTripsForToday
  rw [mem_tripsFold]
  simp

/-- The JS remainder of a positive number by `360` lands in `[0, 360)`. -/
theorem jsRem_nonneg_lt (a : ℝ) (ha : 0 < a) :
    0 ≤ jsRem a 360 ∧ jsRem a 360 < 360 := by
  have h360 : (0:ℝ) < 360 := by norm_num
  have hq : 0 ≤ a / 360 := le_of_lt (div_pos ha h360)
  have hcancel : (360:ℝ) * (a / 360) = a := by field_simp
  unfold jsRem
  rw [if_pos hq]
  constructor
  · have h1 : ((⌊a / 360⌋ : ℤ) : ℝ) ≤ a / 360 := Int.floor_le _
    have h2 : (360:ℝ) * ((⌊a / 360⌋ : ℤ) : ℝ) ≤ 360 * (a / 360) :=
      mul_le_mul_of_nonneg_left h1 (by norm_num)
    rw [hcancel] at h2
    linarith
  · have h1 : a / 360 < (⌊a / 360⌋ : ℤ) + 1 := Int.lt_floor_add_one _
    have h2 : (360:ℝ) * (a / 360) < 360 * (((⌊a / 360⌋ : ℤ) : ℝ) + 1) :=
      mul_lt_mul_of_pos_left (by exact_mod_cast h1) h360
    rw [hcancel] at h2
    linarith

/-- Radian-to-degree conversion keeps the strict `-π` lower bound above
`-180`. -/
theorem toDeg_gt (t : ℝ) (h : -Real.pi < t) : -180 < t * 180 / Real.pi := by
  have hpi := Real.pi_pos
  rw [lt_div_iff₀ hpi]
  nlinarith

/-- A degree-converted `atan2` value, shifted by `360` and reduced by the
JS remainder, lands in `[0, 360)`. -/
theorem jsRem_deg_bounds (y x : ℝ) :
    0 ≤ jsRem (atan2 y x * 180 / Real.pi + 360) 360 ∧
    jsRem (atan2 y x * 180 / Real.pi + 360) 360 < 360 := by
  have h1 : -Real.pi < atan2 y x := Complex.neg_pi_lt_arg _
  have h2 := toDeg_gt (atan2 y x) h1
  exact jsRem_nonneg_lt _ (by linarith)

/-- The source's bearing always lies in `[0, 360)`. -/
theorem getBearing_bounds (lat1 lon1 lat2 lon2 : ℚ) :
    0 ≤ getBearing lat1 lon1 lat2 lon2 ∧ getBearing lat1 lon1 lat2 lon2 < 360 := by
  unfold getBearing
  exact jsRem_deg_bounds _ _

def spC6a : Stop := ⟨"SA", "A", 40, -3⟩

def spC6b : Stop := ⟨"SB", "B", 41, -3⟩

def stC6a : StopTime := ⟨"T", "SA", 1, some 1000, some 1000⟩

def stC6b : StopTime := ⟨"T", "SB", 2, some 2000, some 2000⟩

def gtfsC6 : GTFSData :=
  ⟨[("SA", spC6a), ("SB", spC6b)], [], [("T", ⟨"T", "R", "SV", "H"⟩)],
    [("T", [stC6a, stC6b])]⟩

/-- C6: every Position emitted by the simulator carries a bearing in
`[0, 360)`; an `AT_STOP` Position has bearing exactly `0`, and a `MOVING`
Position's bearing is the spherical forward azimuth `getBearing` from its
`prevStop` to its `nextStop` (the atan2 formula converted to degrees and
normalized into `[0, 360)`). -/
theorem claim_C6 (gtfs : GTFSData) (ids : List String) (now : ℤ)
    (p : TrainPosition) (hp : p ∈ calculateTrainPositions gtfs ids now) :
    (0 ≤ p.bearing ∧ p.bearing < 360) ∧
    (p.status = TrainStatus.AT_STOP → p.bearing = 0) ∧
    (p.status = TrainStatus.MOVING → ∃ a b : Stop,
      p.prevStop = some a ∧ p.nextStop = some b ∧
      p.bearing = getBearing a.stop_lat a.stop_lon b.stop_lat b.stop_lon) := by
  obtain ⟨id, _, hsome⟩ := (mem_calculateTrainPositions gtfs ids now p).1 hp
  obtain ⟨ts, _, hscan⟩ := simulateTrip_some gtfs id now p hsome
  rcases scanSegments_shape gtfs id now ts p hscan with
    ⟨cur, nxt, s, _, hp'⟩ | ⟨cur, nxt, a, b, _, _, hp'⟩
  · subst hp'
    refine ⟨⟨le_refl 0, by norm_num [mkAtStop]⟩, fun _ => rfl, fun hst => ?_⟩
    simp [mkAtStop] at hst
  · subst hp'
    refine ⟨?_, fun hst => ?_, fun _ => ⟨a, b, rfl, rfl, rfl⟩⟩
    · exact getBearing_bounds a.stop_lat a.stop_lon b.stop_lat b.stop_lon
    · simp [mkMoving] at hst

theorem claim_C6_witness :
    (0 ≤ (mkMoving gtfsC6 "T" 1500 stC6a stC6b spC6a spC6b).bearing ∧
      (mkMoving gtfsC6 "T" 1500 stC6a stC6b spC6a spC6b).bearing < 360) ∧
    ((mkMoving gtfsC6 "T" 1500 stC6a stC6b spC6a spC6b).status =
        TrainStatus.AT_STOP →
      (mkMoving gtfsC6 "T" 1500 stC6a stC6b spC6a spC6b).bearing = 0) ∧
    ((mkMoving gtfsC6 "T" 1500 stC6a stC6b spC6a spC6b).status =
        TrainStatus.MOVING →
      ∃ a b : Stop,
        (mkMoving gtfsC6 "T" 1500 stC6a stC6b spC6a spC6b).prevStop = some a ∧
        (mkMoving gtfsC6 "T" 1500 stC6a stC6b spC6a spC6b).nextStop = some b ∧
        (mkMoving gtfsC6 "T" 1500 stC6a stC6b spC6a spC6b).bearing =
          getBearing a.stop_lat a.stop_lon b.stop_lat b.stop_lon) :=
  claim_C6 gtfsC6 ["T"] 1500 (mkMoving gtfsC6 "T" 1500 stC6a stC6b spC6a spC6b)
    (by
      have h : calculateTrainPositions gtfsC6 ["T"] 1500 =
          [mkMoving gtfsC6 "T" 1500 stC6a stC6b spC6a spC6b] := rfl
      rw [h]
      exact List.mem_singleton.mpr rfl)

/-- A head segment matching the at-stop window with a resolvable stop
emits the at-stop record and breaks. -/
theorem scanSegments_atStop_some (gtfs : GTFSData) (tid : String) (now : ℤ)
    (cur nxt : StopTime) (rest : List StopTime) (s : Stop)
    (h1 : arrS cur ≤ now) (h2 : now ≤ depS cur)
    (hl : List.lookup cur.stop_id gtfs.stops = some s) :
    scanSegments gtfs tid now (cur :: nxt :: rest) =
      some (mkAtStop gtfs tid cur nxt s) := by
  rw [scanSegments, if_pos ⟨h1, h2⟩, hl]

/-- A head segment matching the at-stop window with an unresolvable stop
emits nothing and still breaks. -/
theorem scanSegments_atStop_none (gtfs : GTFSData) (tid : String) (now : ℤ)
    (cur nxt : StopTime) (rest : List StopTime)
    (h1 : arrS cur ≤ now) (h2 : now ≤ depS cur)
    (hl : List.lookup cur.stop_id gtfs.stops = none) :
    scanSegments gtfs tid now (cur :: nxt :: rest) = none := by
  rw [scanSegments, if_pos ⟨h1, h2⟩, hl]

/-- A head segment matching the in-transit window with both stops
resolvable emits the moving record and breaks. -/
theorem scanSegments_moving_some (gtfs : GTFSData) (tid : String) (now : ℤ)
    (cur nxt : StopTime) (rest : List StopTime) (a b : Stop)
    (h1 : depS cur < now) (h2 : now < arrS nxt)
    (ha : List.lookup cur.stop_id gtfs.stops = some a)
    (hb : List.lookup nxt.stop_id gtfs.stops = some b) :
    scanSegments gtfs tid now (cur :: nxt :: rest) =
      some (mkMoving gtfs tid now cur nxt a b) := by
  have hnot : ¬(arrS cur ≤ now ∧ now ≤ depS cur) :=
    fun hc => absurd hc.2 (not_le.mpr h1)
  rw [scanSegments, if_neg hnot, if_pos ⟨h1, h2⟩, ha, hb]

/-- A head segment matching the in-transit window with either stop
unresolvable emits nothing and still breaks. -/
theorem scanSegments_moving_none (gtfs : GTFSData) (tid : String) (now : ℤ)
    (cur nxt : StopTime) (rest : List StopTime)
    (h1 : depS cur < now) (h2 : now < arrS nxt)
    (hmiss : List.lookup cur.stop_id gtfs.stops = none ∨
      List.lookup nxt.stop_id gtfs.stops = none) :
    scanSegments gtfs tid now (cur :: nxt :: rest) = none := by
  have hnot : ¬(arrS cur ≤ now ∧ now ≤ depS cur) :=
    fun hc => absurd hc.2 (not_le.mpr h1)
  rw [scanSegments, if_neg hnot, if_pos ⟨h1, h2⟩]
  rcases hmiss with ha | hb
  · rw [ha]
  · rw [hb]
    cases List.lookup cur.stop_id gtfs.stops <;> rfl

/-- Inside both window checks the per-trip simulation is the segment
scan. -/
theorem simulateTrip_eq_scan (gtfs : GTFSData) (tid : String) (now : ℤ)
    (t0 t1 : StopTime) (rest : List StopTime)
    (hlk : List.lookup tid gtfs.stopTimes = some (t0 :: t1 :: rest))
    (h1 : ¬ now < depS t0)
    (h2 : ¬ now > arrS ((t1 :: rest).getLast (List.cons_ne_nil t1 rest))) :
    simulateTrip gtfs tid now = scanSegments gtfs tid now (t0 :: t1 :: rest) := by
  simp only [simulateTrip, hlk]
  rw [if_neg h1, if_neg h2]

/-- A trip whose first departure lies in the future is skipped. -/
theorem simulateTrip_not_started (gtfs : GTFSData) (tid : String) (now : ℤ)
    (t0 t1 : StopTime) (rest : List StopTime)
    (hlk : List.lookup tid gtfs.stopTimes = some (t0 :: t1 :: rest))
    (h : now < depS t0) : simulateTrip gtfs tid now = none := by
  simp only [simulateTrip, hlk]
  rw [if_pos h]

/-- A trip whose last arrival lies in the past is skipped. -/
theorem simulateTrip_finished (gtfs : GTFSData) (tid : String) (now : ℤ)
    (t0 t1 : StopTime) (rest : List StopTime)
    (hlk : List.lookup tid gtfs.stopTimes = some (t0 :: t1 :: rest))
    (hn : ¬ now < depS t0)
    (h : now > arrS ((t1 :: rest).getLast (List.cons_ne_nil t1 rest))) :
    simulateTrip gtfs tid now = none := by
  simp only [simulateTrip, hlk]
  rw [if_neg hn, if_pos h]

def stC1a : StopTime := ⟨"T1", "S1", 1, some 28800, some 28800⟩

def stC1b : StopTime := ⟨"T1", "S2", 2, some 32400, some 32400⟩

def spC1a : Stop := ⟨"S1", "A", 40, -3⟩

def spC1b : Stop := ⟨"S2", "B", 41, -3⟩

def gtfsC1 : GTFSData :=
  ⟨[("S1", spC1a), ("S2", spC1b)], [], [("T1", ⟨"T1", "R", "SV", "H"⟩)],
    [("T1", [stC1a, stC1b])]⟩

/-- C1 counterexample: the claim's own boundary instance (first departure
28800, last arrival 32400, both stops well-formed and resolvable) emits NO
Position at `nowSeconds = 32400`, contradicting the claimed `AT_STOP`
Position at the last stop: the segment scan never treats the final
stop-time as the current stop. -/
theorem claim_C1_counterexample :
    depS stC1a = 28800 ∧ arrS stC1b = 32400 ∧
    List.lookup "T1" gtfsC1.stopTimes = some [stC1a, stC1b] ∧
    scheduleWellFormed [stC1a, stC1b] ∧
    List.lookup (stC1b.stop_id) gtfsC1.stops = some spC1b ∧
    calculateTrainPositions gtfsC1 ["T1"] 32400 = [] :=
  ⟨rfl, rfl, rfl, by decide, rfl, rfl⟩

/-- C1 (amended): for a well-formed trip with first departure `F` and last
arrival `L`: `nowSeconds < F` or `nowSeconds > L` emits no Position;
`nowSeconds = F` emits the `AT_STOP` record at the first stop (when that
stop resolves); and `nowSeconds = L` ALSO emits no Position whenever every
non-final stop-time departs strictly before `L` (as in any strictly
forward schedule), because the scan never treats the last stop-time as the
current stop. -/
theorem claim_C1_amended (gtfs : GTFSData) (ids : List String) (tid : String)
    (t0 t1 : StopTime) (rest : List StopTime) (now : ℤ) (a : Stop)
    (hlk : List.lookup tid gtfs.stopTimes = some (t0 :: t1 :: rest))
    (hwf : scheduleWellFormed (t0 :: t1 :: rest)) :
    (now < depS t0 → ∀ p ∈ calculateTrainPositions gtfs ids now, p.trip_id ≠ tid) ∧
    (now > arrS ((t1 :: rest).getLast (List.cons_ne_nil t1 rest)) →
      ∀ p ∈ calculateTrainPositions gtfs ids now, p.trip_id ≠ tid) ∧
    (now = depS t0 → List.lookup t0.stop_id gtfs.stops = some a →
      calculateTrainPositions gtfs [tid] now = [mkAtStop gtfs tid t0 t1 a]) ∧
    (now = arrS ((t1 :: rest).getLast (List.cons_ne_nil t1 rest)) →
      (∀ pr ∈ (t0 :: t1 :: rest).zip (t1 :: rest), depS pr.1 < now) →
      ∀ p ∈ calculateTrainPositions gtfs ids now, p.trip_id ≠ tid) := by
  have hle : depS t0 ≤ arrS ((t1 :: rest).getLast (List.cons_ne_nil t1 rest)) :=
    wf_dep_head_le_last t0 (t1 :: rest) (List.cons_ne_nil t1 rest) hwf
  refine ⟨?_, ?_, ?_, ?_⟩
  · intro h
    exact no_position_of_none gtfs ids now tid
      (simulateTrip_not_started gtfs tid now t0 t1 rest hlk h)
  · intro h
    exact no_position_of_none gtfs ids now tid
      (simulateTrip_finished gtfs tid now t0 t1 rest hlk (by omega) h)
  · intro hF hstop
    have hs : simulateTrip gtfs tid now = some (mkAtStop gtfs tid t0 t1 a) := by
      rw [simulateTrip_eq_scan gtfs tid now t0 t1 rest hlk (by omega) (by omega)]
      exact scanSegments_atStop_some gtfs tid now t0 t1 rest a
        (by have h := hwf.1 t0 (by simp); omega) (le_of_eq hF) hstop
    simp [calculateTrainPositions, hs]
  · intro hL hpairs
    have hwin1 : ¬ now < depS t0 := by
      have := hpairs (t0, t1) (by simp)
      omega
    have hnone : simulateTrip gtfs tid now = none := by
      rw [simulateTrip_eq_scan gtfs tid now t0 t1 rest hlk hwin1 (by omega)]
      apply scanSegments_eq_none
      intro pr hpr
      have hz : pr ∈ (t0 :: t1 :: rest).zip (t1 :: rest) := by simpa using hpr
      have hdep : depS pr.1 < now := hpairs pr hz
      have harr : arrS pr.2 ≤ now := by
        have hmem : pr.2 ∈ t0 :: t1 :: rest :=
          List.mem_cons_of_mem t0 (List.of_mem_zip hz).2
        have := wf_arr_le_last (t0 :: t1 :: rest) (by simp) hwf pr.2 hmem
        rw [List.getLast_cons (List.cons_ne_nil t1 rest)] at this
        omega
      exact ⟨fun hc => absurd hc.2 (not_le.mpr hdep),
        fun hc => absurd hc.2 (not_lt.mpr harr)⟩
    exact no_position_of_none gtfs ids now tid hnone

theorem claim_C1_amended_witness :
    (∀ p ∈ calculateTrainPositions gtfsC1 ["T1"] 28799, p.trip_id ≠ "T1") ∧
    calculateTrainPositions gtfsC1 ["T1"] 28800 =
      [mkAtStop gtfsC1 "T1" stC1a stC1b spC1a] ∧
    (∀ p ∈ calculateTrainPositions gtfsC1 ["T1"] 32400, p.trip_id ≠ "T1") ∧
    (∀ p ∈ calculateTrainPositions gtfsC1 ["T1"] 32401, p.trip_id ≠ "T1") :=
  ⟨(claim_C1_amended gtfsC1 ["T1"] "T1" stC1a stC1b [] 28799 spC1a rfl
      (by decide)).1 (by decide),
   (claim_C1_amended gtfsC1 ["T1"] "T1" stC1a stC1b [] 28800 spC1a rfl
      (by decide)).2.2.1 (by decide) rfl,
   (claim_C1_amended gtfsC1 ["T1"] "T1" stC1a stC1b [] 32400 spC1a rfl
      (by decide)).2.2.2 (by decide) (by decide),
   (claim_C1_amended gtfsC1 ["T1"] "T1" stC1a stC1b [] 32401 spC1a rfl
      (by decide)).2.1 (by decide)⟩

def spC5a : Stop := ⟨"SA", "A", 40, -3⟩

def spC5b : Stop := ⟨"SB", "B", 41, -3⟩

def stC5a : StopTime := ⟨"T", "SA", 1, some 1000, some 1000⟩

def stC5b : StopTime := ⟨"T", "SB", 2, some 2000, some 2000⟩

def gtfsC5 : GTFSData :=
  ⟨[("SA", spC5a), ("SB", spC5b)], [], [("T", ⟨"T", "R", "SV", "H"⟩)],
    [("T", [stC5a, stC5b])]⟩

/-- C5: when the leading segment satisfies `departure < nowSeconds <
arrival` and both stops resolve, the simulator emits the `MOVING` record
whose latitude and longitude are the independent linear interpolations of
the two stops' coordinates at fraction
`(nowSeconds - departure) / (arrival - departure)`. -/
theorem claim_C5 (gtfs : GTFSData) (tid : String) (now : ℤ)
    (cur nxt : StopTime) (rest : List StopTime) (a b : Stop)
    (hlk : List.lookup tid gtfs.stopTimes = some (cur :: nxt :: rest))
    (hwin : now ≤ arrS ((nxt :: rest).getLast (List.cons_ne_nil nxt rest)))
    (h1 : depS cur < now) (h2 : now < arrS nxt)
    (ha : List.lookup cur.stop_id gtfs.stops = some a)
    (hb : List.lookup nxt.stop_id gtfs.stops = some b) :
    calculateTrainPositions gtfs [tid] now = [mkMoving gtfs tid now cur nxt a b] ∧
    (mkMoving gtfs tid now cur nxt a b).status = TrainStatus.MOVING ∧
    (mkMoving gtfs tid now cur nxt a b).lat =
      interpolate a.stop_lat b.stop_lat
        (((now - depS cur : ℤ) : ℚ) / ((arrS nxt - depS cur : ℤ) : ℚ)) ∧
    (mkMoving gtfs tid now cur nxt a b).lng =
      interpolate a.stop_lon b.stop_lon
        (((now - depS cur : ℤ) : ℚ) / ((arrS nxt - depS cur : ℤ) : ℚ)) := by
  have hs : simulateTrip gtfs tid now = some (mkMoving gtfs tid now cur nxt a b) := by
    rw [simulateTrip_eq_scan gtfs tid now cur nxt rest hlk (by omega) (by omega)]
    exact scanSegments_moving_some gtfs tid now cur nxt rest a b h1 h2 ha hb
  exact ⟨by simp [calculateTrainPositions, hs], rfl, rfl, rfl⟩

theorem claim_C5_witness :
    (calculateTrainPositions gtfsC5 ["T"] 1500 =
      [mkMoving gtfsC5 "T" 1500 stC5a stC5b spC5a spC5b] ∧
    (mkMoving gtfsC5 "T" 1500 stC5a stC5b spC5a spC5b).status =
      TrainStatus.MOVING ∧
    (mkMoving gtfsC5 "T" 1500 stC5a stC5b spC5a spC5b).lat =
      interpolate spC5a.stop_lat spC5b.stop_lat
        (((1500 - depS stC5a : ℤ) : ℚ) / ((arrS stC5b - depS stC5a : ℤ) : ℚ)) ∧
    (mkMoving gtfsC5 "T" 1500 stC5a stC5b spC5a spC5b).lng =
      interpolate spC5a.stop_lon spC5b.stop_lon
        (((1500 - depS stC5a : ℤ) : ℚ) / ((arrS stC5b - depS stC5a : ℤ) : ℚ))) ∧
    (mkMoving gtfsC5 "T" 1500 stC5a stC5b spC5a spC5b).lat = 405 / 10 ∧
    (mkMoving gtfsC5 "T" 1500 stC5a stC5b spC5a spC5b).lng = -3 :=
  ⟨claim_C5 gtfsC5 "T" 1500 stC5a stC5b [] spC5a spC5b rfl (by decide)
      (by decide) (by decide) rfl rfl,
   by norm_num [mkMoving, interpolate, arrS, depS, stC5a, stC5b, spC5a, spC5b],
   by norm_num [mkMoving, interpolate, arrS, depS, stC5a, stC5b, spC5a, spC5b]⟩

def spC9b : Stop := ⟨"S2", "B", 41, -3⟩

def spC9c : Stop := ⟨"S3", "C", 42, -3⟩

def gtfsC9 : GTFSData :=
  ⟨[("S2", spC9b), ("S3", spC9c)], [],
    [("T", ⟨"T", "R", "SV", "H"⟩), ("T2", ⟨"T2", "R", "SV", "H"⟩)],
    [("T", [⟨"T", "S1", 1, some 100, some 200⟩, ⟨"T", "S2", 2, some 100, some 200⟩,
       ⟨"T", "S3", 3, some 500, some 600⟩]),
     ("T2", [⟨"T2", "S2", 1, some 100, some 100⟩, ⟨"T2", "S1", 2, some 300, some 300⟩,
       ⟨"T2", "S3", 3, some 400, some 400⟩])]⟩

/-- C9: if the first matching segment's stop lookup fails — the current
stop for an at-stop match, or either endpoint for an in-transit match —
the trip yields no Position this tick and the scan does not fall through
to later segments. -/
theorem claim_C9 (gtfs : GTFSData) (tid : String) (now : ℤ)
    (cur nxt : StopTime) (rest : List StopTime)
    (hlk : List.lookup tid gtfs.stopTimes = some (cur :: nxt :: rest))
    (hwin1 : ¬ now < depS cur)
    (hwin2 : ¬ now > arrS ((nxt :: rest).getLast (List.cons_ne_nil nxt rest))) :
    (arrS cur ≤ now → now ≤ depS cur →
      List.lookup cur.stop_id gtfs.stops = none →
      calculateTrainPositions gtfs [tid] now = []) ∧
    (depS cur < now → now < arrS nxt →
      (List.lookup cur.stop_id gtfs.stops = none ∨
        List.lookup nxt.stop_id gtfs.stops = none) →
      calculateTrainPositions gtfs [tid] now = []) := by
  constructor
  · intro h1 h2 hmiss
    have hs : simulateTrip gtfs tid now = none := by
      rw [simulateTrip_eq_scan gtfs tid now cur nxt rest hlk hwin1 hwin2]
      exact scanSegments_atStop_none gtfs tid now cur nxt rest h1 h2 hmiss
    simp [calculateTrainPositions, hs]
  · intro h1 h2 hmiss
    have hs : simulateTrip gtfs tid now = none := by
      rw [simulateTrip_eq_scan gtfs tid now cur nxt rest hlk hwin1 hwin2]
      exact scanSegments_moving_none gtfs tid now cur nxt rest h1 h2 hmiss
    simp [calculateTrainPositions, hs]

theorem claim_C9_witness :
    calculateTrainPositions gtfsC9 ["T"] 200 = [] ∧
    calculateTrainPositions gtfsC9 ["T2"] 200 = [] :=
  ⟨(claim_C9 gtfsC9 "T" 200 ⟨"T", "S1", 1, some 100, some 200⟩
      ⟨"T", "S2", 2, some 100, some 200⟩ [⟨"T", "S3", 3, some 500, some 600⟩]
      rfl (by decide) (by decide)).1 (by decide) (by decide) rfl,
   (claim_C9 gtfsC9 "T2" 200 ⟨"T2", "S2", 1, some 100, some 100⟩
      ⟨"T2", "S1", 2, some 300, some 300⟩ [⟨"T2", "S3", 3, some 400, some 400⟩]
      rfl (by decide) (by decide)).2 (by decide) (by decide) (Or.inr rfl)⟩

def gtfsC7 : GTFSData :=
  ⟨[("S1", ⟨"S1", "A", 40, -3⟩)], [], [("T", ⟨"T", "R", "SV", "H"⟩)],
    [("T", [⟨"T", "S1", 1, some 50, some 30⟩, ⟨"T", "S1", 2, some 60, some 70⟩,
       ⟨"T", "S1", 3, some 80, some 90⟩]),
     ("T3", [⟨"T3", "S1", 1, some 10, some 20⟩])]⟩

/-- C7: the simulator is total on degenerate schedule data — a trip id
with an absent or shorter-than-two stop-time sequence, or one whose scan
matches no segment, is silently omitted from the tick output. -/
theorem claim_C7 (gtfs : GTFSData) (ids : List String) (now : ℤ) (tid : String)
    (h : List.lookup tid gtfs.stopTimes = none ∨
      (∃ ts, List.lookup tid gtfs.stopTimes = some ts ∧ ts.length < 2) ∨
      (∃ ts, List.lookup tid gtfs.stopTimes = some ts ∧
        ∀ pr ∈ ts.zip ts.tail,
          ¬(arrS pr.1 ≤ now ∧ now ≤ depS pr.1) ∧
          ¬(depS pr.1 < now ∧ now < arrS pr.2))) :
    ∀ p ∈ calculateTrainPositions gtfs ids now, p.trip_id ≠ tid := by
  apply no_position_of_none
  rcases h with h | ⟨ts, hlk, hlen⟩ | ⟨ts, hlk, hnm⟩
  · simp [simulateTrip, h]
  · cases ts with
    | nil => simp [simulateTrip, hlk]
    | cons x ts' =>
      cases ts' with
      | nil => simp [simulateTrip, hlk]
      | cons y r => exact absurd hlen (by simp [List.length_cons])
  · cases ts with
    | nil => simp [simulateTrip, hlk]
    | cons t0 ts' =>
      cases ts' with
      | nil => simp [simulateTrip, hlk]
      | cons t1 rest =>
        by_cases hw1 : now < depS t0
        · exact simulateTrip_not_started gtfs tid now t0 t1 rest hlk hw1
        · by_cases hw2 : now > arrS ((t1 :: rest).getLast (List.cons_ne_nil t1 rest))
          · exact simulateTrip_finished gtfs tid now t0 t1 rest hlk hw1 hw2
          · rw [simulateTrip_eq_scan gtfs tid now t0 t1 rest hlk hw1 hw2]
            exact scanSegments_eq_none gtfs tid now _ hnm

theorem claim_C7_witness :
    (∀ p ∈ calculateTrainPositions gtfsC7 ["T"] 30, p.trip_id ≠ "T") ∧
    (∀ p ∈ calculateTrainPositions gtfsC7 ["T3"] 15, p.trip_id ≠ "T3") ∧
    (∀ p ∈ calculateTrainPositions gtfsC7 ["T4"] 15, p.trip_id ≠ "T4") :=
  ⟨claim_C7 gtfsC7 ["T"] 30 "T"
      (Or.inr (Or.inr ⟨_, rfl, by decide⟩)),
   claim_C7 gtfsC7 ["T3"] 15 "T3"
      (Or.inr (Or.inl ⟨_, rfl, by decide⟩)),
   claim_C7 gtfsC7 ["T4"] 15 "T4" (Or.inl rfl)⟩

/-- The tick output never contains more positions tagged with a trip id
than that id has entries in the requested list. -/
theorem calc_filter_count_le (gtfs : GTFSData) (now : ℤ) (tid : String) :
    ∀ ids : List String,
      ((calculateTrainPositions gtfs ids now).filter
        (fun p => p.trip_id = tid)).length ≤ ids.count tid
  | [] => by simp [calculateTrainPositions]
  | id :: ids => by
    have ih := calc_filter_count_le gtfs now tid ids
    simp only [calculateTrainPositions] at ih ⊢
    cases hs : simulateTrip gtfs id now with
    | none =>
      simp only [List.filterMap_cons, hs]
      rw [List.count_cons]
      split_ifs <;> omega
    | some p =>
      simp only [List.filterMap_cons, hs]
      rw [List.filter_cons, List.count_cons]
      by_cases hp : p.trip_id = tid
      · have hid : id = tid := by
          have h := simulateTrip_trip_id gtfs id now p hs
          rw [hp] at h
          exact h.symm
        rw [if_pos (decide_eq_true hp), if_pos (beq_iff_eq.mpr hid),
          List.length_cons]
        omega
      · rw [if_neg (by simpa using hp)]
        split_ifs <;> omega

def spC2a : Stop := ⟨"SA", "A", 40, -3⟩

def spC2b : Stop := ⟨"SB", "B", 41, -3⟩

def spC2c : Stop := ⟨"SC", "C", 42, -3⟩

def stC2a : StopTime := ⟨"T", "SA", 1, some 1000, some 1000⟩

def stC2b : StopTime := ⟨"T", "SB", 2, some 2000, some 2100⟩

def stC2c : StopTime := ⟨"T", "SC", 3, some 3000, some 3000⟩

def gtfsC2 : GTFSData :=
  ⟨[("SA", spC2a), ("SB", spC2b), ("SC", spC2c)], [],
    [("T", ⟨"T", "R", "SV", "H"⟩)], [("T", [stC2a, stC2b, stC2c])]⟩

/-- C2: a trip id appearing once in `activeTripIds` yields at most one
Position, the one of the first matching segment; in a well-formed
three-stop trip, any `nowSeconds` strictly between the second stop's
departure and the third stop's arrival selects segment (2,3) as a single
`MOVING` record between stops 2 and 3, never segment (1,2). -/
theorem claim_C2 (gtfs : GTFSData) (now : ℤ) :
    (∀ (ids : List String) (tid : String), ids.count tid = 1 →
      ((calculateTrainPositions gtfs ids now).filter
        (fun p => p.trip_id = tid)).length ≤ 1) ∧
    (∀ (tid : String) (s0 s1 s2 : StopTime) (a b : Stop),
      List.lookup tid gtfs.stopTimes = some [s0, s1, s2] →
      scheduleWellFormed [s0, s1, s2] →
      depS s1 < now → now < arrS s2 →
      List.lookup s1.stop_id gtfs.stops = some a →
      List.lookup s2.stop_id gtfs.stops = some b →
      calculateTrainPositions gtfs [tid] now =
        [mkMoving gtfs tid now s1 s2 a b]) := by
  constructor
  · intro ids tid hcount
    have h := calc_filter_count_le gtfs now tid ids
    omega
  · intro tid s0 s1 s2 a b hlk hwf h1 h2 ha hb
    have h00 : arrS s0 ≤ depS s0 := hwf.1 s0 (by simp)
    have h01 : depS s0 ≤ arrS s1 := hwf.2 (s0, s1) (by simp)
    have h11 : arrS s1 ≤ depS s1 := hwf.1 s1 (by simp)
    have hlast : (s1 :: [s2]).getLast (List.cons_ne_nil s1 [s2]) = s2 := rfl
    have hs : simulateTrip gtfs tid now = some (mkMoving gtfs tid now s1 s2 a b) := by
      rw [simulateTrip_eq_scan gtfs tid now s0 s1 [s2] hlk (by omega)
        (by rw [hlast]; omega)]
      rw [scanSegments, if_neg (by omega), if_neg (by omega)]
      exact scanSegments_moving_some gtfs tid now s1 s2 [] a b h1 h2 ha hb
    simp [calculateTrainPositions, hs]

theorem claim_C2_witness :
    ((calculateTrainPositions gtfsC2 ["T"] 2500).filter
      (fun p => p.trip_id = "T")).length ≤ 1 ∧
    calculateTrainPositions gtfsC2 ["T"] 2500 =
      [mkMoving gtfsC2 "T" 2500 stC2b stC2c spC2b spC2c] :=
  ⟨(claim_C2 gtfsC2 2500).1 ["T"] "T" (by decide),
   (claim_C2 gtfsC2 2500).2 "T" stC2a stC2b stC2c spC2b spC2c rfl (by decide)
      (by decide) (by decide) rfl rfl⟩

/-- C8: the service resolver is deterministic — two runs on identical
inputs return collections equal as sets of trip identifiers. -/
theorem claim_C8 (gtfs : ExtendedGTFSData) (date : SimDate) (r1 r2 : List String)
    (h1 : r1 = getActiveTripsForToday gtfs date)
    (h2 : r2 = getActiveTripsForToday gtfs date) :
    ∀ tid : String, tid ∈ r1 ↔ tid ∈ r2 := by
  subst h1
  subst h2
  intro tid
  exact Iff.rfl

def gtfsC8 : ExtendedGTFSData :=
  ⟨⟨[], [], [("T1", ⟨"T1", "R", "SV", "H"⟩)], []⟩,
    [("SV", ⟨"SV", true, true, true, true, true, true, true, 20240101, 20241231⟩)],
    none⟩

theorem claim_C8_witness :
    "T1" ∈ getActiveTripsForToday gtfsC8 ⟨2024, 6, 3, 1⟩ ↔
    "T1" ∈ getActiveTripsForToday gtfsC8 ⟨2024, 6, 3, 1⟩ :=
  claim_C8 gtfsC8 ⟨2024, 6, 3, 1⟩ _ _ rfl rfl "T1"

/-- For a service keyed exactly once in the exception table, final
membership in the active set is decided by its last matching exception
entry, falling back to the weekly-rule seed. -/
theorem mem_active_of_split (gtfs : ExtendedGTFSData) (date : SimDate)
    (s : String) (l1 l2 : List (String × List CalendarDate))
    (ds : List CalendarDate)
    (hcd : gtfs.calendarDates = some (l1 ++ (s, ds) :: l2))
    (hkeys : ∀ p ∈ l1 ++ l2, p.1 ≠ s) :
    (s ∈ activeServiceIds gtfs date ↔
      mChoice (lastExceptionSpec ds (dateStr date))
        (s ∈ ruleServiceIds gtfs.calendar date.dayOfWeek (dateInt date))) := by
  simp only [activeServiceIds, hcd]
  exact applyExceptions_split (dateStr date) s ds l1 l2 _ hkeys

/-- C10: when one service has several exception entries for the query
date, they are applied in list order and the last matching entry decides
the service's final membership in the active set (falling back to the
weekly-rule result when none matches). -/
theorem claim_C10 (gtfs : ExtendedGTFSData) (date : SimDate) (s : String)
    (l1 l2 : List (String × List CalendarDate)) (ds : List CalendarDate)
    (hcd : gtfs.calendarDates = some (l1 ++ (s, ds) :: l2))
    (hkeys : ∀ p ∈ l1 ++ l2, p.1 ≠ s) :
    s ∈ activeServiceIds gtfs date ↔
      mChoice (lastExceptionSpec ds (dateStr date))
        (s ∈ ruleServiceIds gtfs.calendar date.dayOfWeek (dateInt date)) :=
  mem_active_of_split gtfs date s l1 l2 ds hcd hkeys

def dC10 : SimDate := ⟨2024, 1, 2, 2⟩

def gtfsC10 : ExtendedGTFSData :=
  ⟨⟨[], [], [], []⟩, [],
    some [("S", [⟨"S", "20240102", "1"⟩, ⟨"S", "20240102", "2"⟩])]⟩

def gtfsC10rev : ExtendedGTFSData :=
  ⟨⟨[], [], [], []⟩, [],
    some [("S", [⟨"S", "20240102", "2"⟩, ⟨"S", "20240102", "1"⟩])]⟩

theorem claim_C10_witness :
    "S" ∈ activeServiceIds gtfsC10rev dC10 ∧
    "S" ∉ activeServiceIds gtfsC10 dC10 :=
  ⟨(claim_C10 gtfsC10rev dC10 "S" [] []
      [⟨"S", "20240102", "2"⟩, ⟨"S", "20240102", "1"⟩] rfl (by simp)).mpr rfl,
   fun hmem => by
    have h := (claim_C10 gtfsC10 dC10 "S" [] []
      [⟨"S", "20240102", "1"⟩, ⟨"S", "20240102", "2"⟩] rfl (by simp)).mp hmem
    have hval : lastExceptionSpec
        [(⟨"S", "20240102", "1"⟩ : CalendarDate), ⟨"S", "20240102", "2"⟩]
        (dateStr dC10) = some false := rfl
    rw [hval] at h
    simp [mChoice] at h⟩

/-- C3: calendar exceptions are applied after and independently of the
weekly-rule scan — a service with no CalendarRule but an ADDED exception
on date `D` is active on `D` (its trips are emitted) and inactive on any
date with a different date string; a service active by rule on `D` but
REMOVED on `D` is inactive on `D` yet active on any other date its rule
matches. -/
theorem claim_C3 (gA gB : ExtendedGTFSData) (s : String) (D Dp : SimDate)
    (l1 l2 m1 m2 : List (String × List CalendarDate)) (e e2 : CalendarDate)
    (kt : String) (t : Trip) (kc : String) (cal : Calendar)
    (hA1 : gA.calendarDates = some (l1 ++ (s, [e]) :: l2))
    (hA2 : ∀ p ∈ l1 ++ l2, p.1 ≠ s)
    (hA3 : ∀ p ∈ gA.calendar, p.2.service_id ≠ s)
    (hA4 : e.date = dateStr D) (hA5 : e.exception_type = "1")
    (hA6 : (kt, t) ∈ gA.trips) (hA7 : t.service_id = s)
    (hB1 : gB.calendarDates = some (m1 ++ (s, [e2]) :: m2))
    (hB2 : ∀ p ∈ m1 ++ m2, p.1 ≠ s)
    (hB3 : (kc, cal) ∈ gB.calendar) (hB4 : cal.service_id = s)
    (hB5 : e2.date = dateStr D) (hB6 : e2.exception_type = "2") :
    (s ∈ activeServiceIds gA D ∧ t.trip_id ∈ getActiveTripsForToday gA D) ∧
    (dateStr Dp ≠ dateStr D → s ∉ activeServiceIds gA Dp) ∧
    (s ∉ activeServiceIds gB D) ∧
    (dateStr Dp ≠ dateStr D →
      cal.start_date ≤ dateInt Dp → dateInt Dp ≤ cal.end_date →
      dayFlag cal Dp.dayOfWeek = true → s ∈ activeServiceIds gB Dp) := by
  have hAD := mem_active_of_split gA D s l1 l2 [e] hA1 hA2
  have hvalAD : lastExceptionSpec [e] (dateStr D) = some true := by
    simp [lastExceptionSpec, specStep, hA4, hA5]
  rw [hvalAD] at hAD
  simp only [mChoice] at hAD
  have hsA : s ∈ activeServiceIds gA D := hAD.mpr trivial
  refine ⟨⟨hsA, ?_⟩, ?_, ?_, ?_⟩
  · exact (mem_getActiveTripsForToday gA D t.trip_id).mpr
      ⟨(kt, t), hA6, by rw [hA7]; exact hsA, rfl⟩
  · intro hne hmem
    have hADp := mem_active_of_split gA Dp s l1 l2 [e] hA1 hA2
    have hvalADp : lastExceptionSpec [e] (dateStr Dp) = none := by
      simp [lastExceptionSpec, specStep, hA4, Ne.symm hne]
    rw [hvalADp] at hADp
    simp only [mChoice] at hADp
    obtain ⟨p, hp, hps, _⟩ := (mem_ruleServiceIds _ _ _ _).mp (hADp.mp hmem)
    exact hA3 p hp hps
  · intro hmem
    have hBD := mem_active_of_split gB D s m1 m2 [e2] hB1 hB2
    have hvalBD : lastExceptionSpec [e2] (dateStr D) = some false := by
      simp [lastExceptionSpec, specStep, hB5, hB6]
    rw [hvalBD] at hBD
    simp only [mChoice] at hBD
    simpa using hBD.mp hmem
  · intro hne hw1 hw2 hflag
    have hBDp := mem_active_of_split gB Dp s m1 m2 [e2] hB1 hB2
    have hvalBDp : lastExceptionSpec [e2] (dateStr Dp) = none := by
      simp [lastExceptionSpec, specStep, hB5, Ne.symm hne]
    rw [hvalBDp] at hBDp
    simp only [mChoice] at hBDp
    exact hBDp.mpr ((mem_ruleServiceIds _ _ _ _).mpr
      ⟨(kc, cal), hB3, hB4, ⟨hw1, hw2⟩, hflag⟩)

def dC3 : SimDate := ⟨2024, 1, 2, 2⟩

def dC3p : SimDate := ⟨2024, 1, 3, 3⟩

def tC3 : Trip := ⟨"T1", "R", "S", "H"⟩

def gtfsC3a : ExtendedGTFSData :=
  ⟨⟨[], [], [("T1", tC3)], []⟩, [], some [("S", [⟨"S", "20240102", "1"⟩])]⟩

def calC3 : Calendar :=
  ⟨"S", true, true, true, true, true, true, true, 20240101, 20241231⟩

def gtfsC3b : ExtendedGTFSData :=
  ⟨⟨[], [], [], []⟩, [("S", calC3)], some [("S", [⟨"S", "20240102", "2"⟩])]⟩

theorem claim_C3_witness :
    ("S" ∈ activeServiceIds gtfsC3a dC3 ∧
      "T1" ∈ getActiveTripsForToday gtfsC3a dC3) ∧
    "S" ∉ activeServiceIds gtfsC3a dC3p ∧
    "S" ∉ activeServiceIds gtfsC3b dC3 ∧
    "S" ∈ activeServiceIds gtfsC3b dC3p := by
  have h := claim_C3 gtfsC3a gtfsC3b "S" dC3 dC3p [] [] [] []
    ⟨"S", "20240102", "1"⟩ ⟨"S", "20240102", "2"⟩ "T1" tC3 "S" calC3
    rfl (by simp) (by simp [gtfsC3a]) rfl rfl (by simp [gtfsC3a]) rfl
    rfl (by simp) (by simp [gtfsC3b]) rfl rfl rfl
  exact ⟨h.1, h.2.1 (by decide), h.2.2.1,
    h.2.2.2 (by decide) (by decide) (by decide) rfl⟩

def calC4 : Calendar :=
  ⟨"SV", true, true, true, true, true, true, true, 20240101, 20240107⟩

def gtfsC4 : ExtendedGTFSData :=
  ⟨⟨[], [], [("T1", ⟨"T1", "R", "SV", "H"⟩)], []⟩, [("SV", calC4)], none⟩

/-- C4: the resolver treats a CalendarRule's `[start_date, end_date]`
window as inclusive at both ends — with window `[20240101, 20240107]` and
all weekday flags set, the service's trip is emitted on 2024-01-01
(Monday) and 2024-01-07 (Sunday) and not on 2023-12-31 (Sunday) or
2024-01-08 (Monday). -/
theorem claim_C4 :
    "T1" ∈ getActiveTripsForToday gtfsC4 ⟨2024, 1, 1, 1⟩ ∧
    "T1" ∈ getActiveTripsForToday gtfsC4 ⟨2024, 1, 7, 0⟩ ∧
    "T1" ∉ getActiveTripsForToday gtfsC4 ⟨2023, 12, 31, 0⟩ ∧
    "T1" ∉ getActiveTripsForToday gtfsC4 ⟨2024, 1, 8, 1⟩ := by
  decide
